import Mathlib

/-!
Verification development for the starknet-devnet state-bookkeeping and
query-serving layer.  The repository fragment under study ships the module
`starknet_devnet/__init__.py` (pedersen-hash monkey-patch and the
`ContractClass.__deepcopy__` override) together with the RPC test-suite
`test/rpc/test_rpc_misc.py`.  The RPC server itself (dispatcher, block
ledger, state-diff recorder, event index, nonce tracker) is not part of the
fragment, so those components are modelled from the specification and the
tests are read against the models.
-/

namespace Devnet

/-! ## Felt wire encoding -/

/-- Canonical wire form of a felt, from the spec: lowercase hex with `0x`
prefix, minimum two hex digits, zero-padded below two digits (zero renders
as `0x00`).  Mirrors `rpc_felt` from `starknet_devnet.blueprints.rpc.utils`
as described by the spec's FeltCodec component. -/
def rpc_felt (value : Nat) : String :=
  let ds := Nat.toDigits 16 value
  "0x" ++ (if ds.length < 2 then '0' :: ds else ds).asString

/-! ## The pedersen-hash monkey-patch (`starknet_devnet/__init__.py`) -/

/-- `patched_pedersen_hash(left, right)` from `__init__.py`: it simply
forwards to the external `cpp_hash` binding.  The external function is a
parameter of the embedding. -/
def patched_pedersen_hash (cpp_hash : Int → Int → Int) (left right : Int) : Int :=
  cpp_hash left right

/-- Which implementation a module-level `pedersen_hash` attribute points to. -/
inductive HashAttr
  | pythonPedersen
  | patchedPedersen
  deriving DecidableEq, Repr

/-- The module attributes mutated by `__init__.py`: the `pedersen_hash`
attribute of `starkware.crypto.signature.fast_pedersen_hash` and of
`starkware.cairo.lang.vm.crypto`. -/
structure HashModules where
  fastPedersenHashAttr : HashAttr
  vmCryptoAttr : HashAttr
  deriving DecidableEq, Repr

/-- Module state before `starknet_devnet/__init__.py` runs: both modules
expose the python implementation from the cairo-lang package. -/
def importedHashModules : HashModules :=
  { fastPedersenHashAttr := .pythonPedersen, vmCryptoAttr := .pythonPedersen }

/-- First `setattr` of `__init__.py`: repoints
`starkware.crypto.signature.fast_pedersen_hash.pedersen_hash`. -/
def setattrFastPedersen (m : HashModules) (v : HashAttr) : HashModules :=
  { m with fastPedersenHashAttr := v }

/-- Second `setattr` of `__init__.py`: repoints
`starkware.cairo.lang.vm.crypto.pedersen_hash`. -/
def setattrVmCrypto (m : HashModules) (v : HashAttr) : HashModules :=
  { m with vmCryptoAttr := v }

/-- Running the module body of `starknet_devnet/__init__.py` over the module
table: both `setattr` calls install `patched_pedersen_hash`. -/
def runHashPatch (m : HashModules) : HashModules :=
  setattrVmCrypto (setattrFastPedersen m .patchedPedersen) .patchedPedersen

/-! ## The `ContractClass.__deepcopy__` override (`starknet_devnet/__init__.py`) -/

/-- Shallow embedding of a Python `ContractClass` object: an object identity
and the references (object ids) held by its internal fields. -/
structure ContractClass where
  objId : Nat
  fields : List Nat
  deriving DecidableEq, Repr

/-- `copy.copy` on a `ContractClass`: allocates a fresh top-level object
whose internal fields are shared by reference with the original. -/
def pyCopy (freshId : Nat) (c : ContractClass) : ContractClass :=
  { objId := freshId, fields := c.fields }

/-- `copy.deepcopy`'s default behaviour on a `ContractClass` when no
`__deepcopy__` hook is installed: a fresh top-level object whose internal
fields are themselves freshly copied objects (new references). -/
def pyDeepcopyDefault (freshId freshFieldBase : Nat) (c : ContractClass) : ContractClass :=
  { objId := freshId
    fields := (List.range c.fields.length).map (fun i => freshFieldBase + i) }

/-- The memo dictionary `copy.deepcopy` threads through `__deepcopy__`. -/
abbrev Memo := List (Nat × Nat)

/-- `simpler_copy(self, memo)` from `__init__.py`: ignores `memo` and
returns `copy(self)`. -/
def simpler_copy (freshId : Nat) (self : ContractClass) (memo : Memo) : ContractClass :=
  pyCopy freshId self

/-- The `__deepcopy__` slot of `ContractClass`, as `copy.deepcopy` sees it. -/
structure CopyHooks where
  deepcopyHook : Option (ContractClass → Memo → ContractClass)

/-- `copy.deepcopy` dispatch on a `ContractClass`: use the installed
`__deepcopy__` hook when present, otherwise recurse into the internals. -/
def pyDeepcopy (hooks : CopyHooks) (freshId freshFieldBase : Nat)
    (c : ContractClass) (memo : Memo) : ContractClass :=
  match hooks.deepcopyHook with
  | some f => f c memo
  | none => pyDeepcopyDefault freshId freshFieldBase c

/-- Hook state after module initialization:
`setattr(ContractClass, "__deepcopy__", simpler_copy)` has run. -/
def initializedHooks (freshId : Nat) : CopyHooks :=
  { deepcopyHook := some (simpler_copy freshId) }

/-! ## RPC value model and dispatcher

Modelled from the spec: the RpcDispatcher itself is not part of the source
fragment; only its tests are.  The definitions below follow §4.5 and §6 of
the spec. -/

/-- A JSON-style parameter/result value, as carried by RPC requests. -/
inductive Json
  | null
  | bool (b : Bool)
  | num (n : Nat)
  | str (s : String)
  | arr (elems : List Json)
  | obj (fields : List (String × Json))

/-- An RPC response payload: either a successful result or the error
envelope carrying `{ "code": <int>, "message": <string> }`. -/
inductive RpcOutcome
  | result (value : Json)
  | error (code : Int) (message : String)

/-- Modelled from the spec: a method's declared parameter shape (its list of
required named parameters, which is also its positional arity). -/
structure MethodSig where
  requiredParams : List String

/-- Modelled from the spec: `params`, when present, is either a mapping of
recognized named parameters or a positional sequence matching the method's
declared arity; absent/null params is valid only for methods with zero
required parameters.  A bare scalar is never a valid shape. -/
def validParamsShape (sig : MethodSig) (params : Json) : Bool :=
  match params with
  | .null => sig.requiredParams.isEmpty
  | .obj fields =>
      fields.all (fun f => sig.requiredParams.contains f.1) &&
      sig.requiredParams.all (fun n => fields.any (fun f => f.1 == n))
  | .arr elems => elems.length == sig.requiredParams.length
  | _ => false

/-- Modelled from the spec: `handle(method, params)` validates the parameter
shape before dispatch; on shape mismatch it fails with `InvalidParams`
(code `-32602`, message `"Invalid params"`) and never executes the
handler. -/
def handle (sig : MethodSig) (handler : Json → RpcOutcome) (params : Json) : RpcOutcome :=
  if validParamsShape sig params then handler params
  else .error (-32602) "Invalid params"

/-- Modelled from the spec: the `syncing` method takes no parameters. -/
def syncingSig : MethodSig := { requiredParams := [] }

/-- Modelled from the spec: `syncing()` returns the boolean constant
`false` (single node, never behind a head). -/
def syncingHandler : Json → RpcOutcome := fun _ => .result (.bool false)

/-- The `starknet_syncing` endpoint: dispatcher plus handler. -/
def syncingRpc (params : Json) : RpcOutcome := handle syncingSig syncingHandler params

/-! ## Event index and pagination

Modelled from the spec (§4.3): the EventIndex is not part of the source
fragment; only its test is. -/

/-- An emitted event as stored in the append-only global log. -/
structure Event where
  address : Nat
  keys : List Nat
  data : List Nat
  deriving DecidableEq, Repr

/-- Modelled from the spec: per-position, optional, AND-combined key match;
a position absent from the filter is unconstrained, and the filter never
matches key positions absent from the event. -/
def keyFilterMatch : List (Option Nat) → List Nat → Bool
  | [], _ => true
  | .some _ :: _, [] => false
  | .none :: fs, [] => keyFilterMatch fs []
  | .none :: fs, _ :: ks => keyFilterMatch fs ks
  | .some f :: fs, k :: ks => f == k && keyFilterMatch fs ks

/-- Modelled from the spec: an event matches when it passes the optional
address filter and the optional per-position key filter. -/
def eventMatches (addrFilt : Option Nat) (keysFilt : Option (List (Option Nat)))
    (e : Event) : Bool :=
  (match addrFilt with
   | .none => true
   | .some a => e.address == a) &&
  (match keysFilt with
   | .none => true
   | .some fs => keyFilterMatch fs e.keys)

/-- Modelled from the spec: the page of a `getEvents` query — begin scanning
at global index `token`, walk ascending global order, collect up to
`chunk_size` matches. -/
def eventsPage (log : List Event) (addrFilt : Option Nat)
    (keysFilt : Option (List (Option Nat))) (token chunk_size : Nat) : List Event :=
  ((log.drop token).filter (eventMatches addrFilt keysFilt)).take chunk_size

/-- Modelled from the spec: `next_token = continuation_token + count_returned`
when at least one event was returned; omitted when the page is empty. -/
def nextContinuationToken (log : List Event) (addrFilt : Option Nat)
    (keysFilt : Option (List (Option Nat))) (token chunk_size : Nat) : Option Nat :=
  if (eventsPage log addrFilt keysFilt token chunk_size).length = 0 then none
  else some (token + (eventsPage log addrFilt keysFilt token chunk_size).length)

/-- Modelled from the spec: `query(...) -> (matched page, next_token)`. -/
def queryEvents (log : List Event) (addrFilt : Option Nat)
    (keysFilt : Option (List (Option Nat))) (token chunk_size : Nat) :
    List Event × Option Nat :=
  (eventsPage log addrFilt keysFilt token chunk_size,
   nextContinuationToken log addrFilt keysFilt token chunk_size)

/-! ## State-diff recorder, block ledger and nonce tracker

Modelled from the spec (§3, §4.1, §4.2, §4.4): these components are not part
of the source fragment; only their tests are. -/

/-- Modelled from the spec: the raw, already-executed outcome of one block's
transaction batch, as handed to the StateDiffRecorder, together with the
senders of the accepted invocations that advance the NonceTracker inside
the same commit. -/
structure Effects where
  declaredClasses : List Nat
  deployments : List (Nat × Nat)
  storageWrites : List (Nat × Nat × Nat)
  acceptedInvokers : List Nat
  deriving DecidableEq, Repr

/-- One block's immutable StateDiff. -/
structure StateDiff where
  declared_contract_hashes : List Nat
  deployed_contracts : List (Nat × Nat)
  storage_diffs : List (Nat × List (Nat × Nat))
  deriving DecidableEq, Repr

/-- First-touch deduplication: keep the first occurrence of each element not
already in `seen`, preserving order.  Used by the recorder both for
declaration dedup and as the address/key ordering discipline. -/
def firstTouch (seen : List Nat) : List Nat → List Nat
  | [] => []
  | x :: rest => if x ∈ seen then firstTouch seen rest else x :: firstTouch (x :: seen) rest

/-- Merge one write into a per-contract entry list: last-write-wins for an
existing key, first-touch order for a new key. -/
def insertEntry : List (Nat × Nat) → Nat → Nat → List (Nat × Nat)
  | [], k, v => [(k, v)]
  | (k', v') :: rest, k, v =>
      if k' = k then (k, v) :: rest else (k', v') :: insertEntry rest k v

/-- Merge one write into the storage diff: last-write-wins per
(address, key), first-touch ordering of addresses. -/
def insertWrite : List (Nat × List (Nat × Nat)) → Nat → Nat → Nat → List (Nat × List (Nat × Nat))
  | [], a, k, v => [(a, [(k, v)])]
  | (a', es) :: rest, a, k, v =>
      if a' = a then (a, insertEntry es k v) :: rest
      else (a', es) :: insertWrite rest a k v

/-- Modelled from the spec: fold the block's raw write sequence into the
grouped storage diff, merging multiple writes to the same (address, key)
into the last-write-wins value while preserving first-touch ordering. -/
def mergeWrites (ws : List (Nat × Nat × Nat)) : List (Nat × List (Nat × Nat)) :=
  ws.foldl (fun d w => insertWrite d w.1 w.2.1 w.2.2) []

/-- Modelled from the spec: `record(effects) -> StateDiff` — deduplicates
declarations by ClassHash against the cumulative already-declared history
(re-declaring an already-declared body is a no-op at the diff level),
keeps deployments in deployment order, and merges storage writes. -/
def record (alreadyDeclared : List Nat) (e : Effects) : StateDiff :=
  { declared_contract_hashes := firstTouch alreadyDeclared e.declaredClasses
    deployed_contracts := e.deployments
    storage_diffs := mergeWrites e.storageWrites }

/-- The committed chain: the effects of each committed block, oldest
first. -/
abbrev Chain := List Effects

/-- The per-block StateDiffs of a chain, threading the cumulative declared
history through successive commits. -/
def chainDiffs (alreadyDeclared : List Nat) : Chain → List StateDiff
  | [] => []
  | e :: rest =>
      let d := record alreadyDeclared e
      d :: chainDiffs (alreadyDeclared ++ d.declared_contract_hashes) rest

/-- The cumulative declared history after processing a chain. -/
def declaredAfter (seen : List Nat) : Chain → List Nat
  | [] => seen
  | e :: rest => declaredAfter (seen ++ firstTouch seen e.declaredClasses) rest

/-- Concatenation of every committed block's `declared_contract_hashes`:
the cumulative diff-level declaration history. -/
def declHistory (c : Chain) : List Nat :=
  ((chainDiffs [] c).map StateDiff.declared_contract_hashes).flatten

/-- All raw (pre-dedup) declarations submitted over a chain's history. -/
def rawDecls (c : Chain) : List Nat :=
  (c.map Effects.declaredClasses).flatten

/-- Whether an address has been deployed as of the latest block. -/
def isDeployed (c : Chain) (addr : Nat) : Bool :=
  c.any (fun e => e.deployments.any (fun d => d.1 == addr))

/-- Modelled from the spec: the NonceTracker value of an address — advanced
by exactly 1 per accepted invocation from that address, default 0. -/
def nonceOf (c : Chain) (addr : Nat) : Nat :=
  ((c.map Effects.acceptedInvokers).flatten).count addr

/-- Modelled from the spec: `getNonce("latest", addr)` — the hex felt of the
tracked nonce when the address is deployed, otherwise the error envelope
`{"code": 20, "message": "Contract not found"}`. -/
def getNonceLatest (c : Chain) (addr : Nat) : RpcOutcome :=
  if isDeployed c addr then .result (.str (rpc_felt (nonceOf c addr)))
  else .error 20 "Contract not found"

/-- The wire form of a state update's `state_diff` member: every felt
rendered through `rpc_felt`. -/
structure StateUpdateOut where
  declared_contract_hashes : List String
  deployed_contracts : List (String × String)
  storage_diffs : List (String × List (String × String))
  deriving DecidableEq, Repr

/-- Serialize a StateDiff to its wire form. -/
def serializeDiff (d : StateDiff) : StateUpdateOut :=
  { declared_contract_hashes := d.declared_contract_hashes.map rpc_felt
    deployed_contracts := d.deployed_contracts.map (fun p => (rpc_felt p.1, rpc_felt p.2))
    storage_diffs := d.storage_diffs.map
      (fun p => (rpc_felt p.1, p.2.map (fun kv => (rpc_felt kv.1, rpc_felt kv.2)))) }

/-- Modelled from the spec: `getStateUpdate("latest")` — the serialized
StateDiff of the highest-numbered committed block, if any. -/
def getStateUpdateLatest (c : Chain) : Option StateUpdateOut :=
  ((chainDiffs [] c).getLast?).map serializeDiff

end Devnet

namespace Devnet

/-! ## Helper lemmas -/

/-- Zero renders as `0x00` (zero-padded to two digits). -/
theorem rpc_felt_zero : rpc_felt 0 = "0x00" := by decide

/-- One renders as `0x01` (zero-padded to two digits). -/
theorem rpc_felt_one : rpc_felt 1 = "0x01" := by decide

/-- Committing one more block appends exactly one StateDiff, recorded
against the cumulative declared history of the earlier blocks. -/
theorem chainDiffs_append_singleton (c : Chain) (e : Effects) :
    ∀ seen : List Nat,
      chainDiffs seen (c ++ [e]) = chainDiffs seen c ++ [record (declaredAfter seen c) e] := by
  induction c with
  | nil => intro seen; simp [chainDiffs, declaredAfter]
  | cons e' rest ih =>
      intro seen
      simp only [List.cons_append, chainDiffs, declaredAfter, record, List.cons.injEq, true_and]
      exact ih _

/-- How often a class hash occurs in a first-touch deduplicated list. -/
theorem firstTouch_count (H : Nat) (l : List Nat) :
    ∀ seen : List Nat,
      (firstTouch seen l).count H = if H ∈ seen then 0 else if H ∈ l then 1 else 0 := by
  induction l with
  | nil => intro seen; simp [firstTouch]
  | cons x rest ih =>
      intro seen
      by_cases hx : x ∈ seen
      · rw [show firstTouch seen (x :: rest) = firstTouch seen rest by simp [firstTouch, hx]]
        rw [ih seen]
        by_cases hHs : H ∈ seen
        · simp [hHs]
        · have hHx : H ≠ x := fun h => hHs (h ▸ hx)
          simp [hHs, List.mem_cons, hHx]
      · rw [show firstTouch seen (x :: rest) = x :: firstTouch (x :: seen) rest by
              simp [firstTouch, hx]]
        rw [List.count_cons, ih (x :: seen)]
        by_cases hHx : H = x
        · subst hHx
          simp [hx, List.mem_cons]
        · by_cases hHs : H ∈ seen
          · simp [hHs, List.mem_cons, hHx, Ne.symm hHx]
          · simp [hHs, List.mem_cons, hHx, Ne.symm hHx]

/-- Membership in a first-touch deduplicated list. -/
theorem mem_firstTouch (H : Nat) (l seen : List Nat) :
    H ∈ firstTouch seen l ↔ (H ∉ seen ∧ H ∈ l) := by
  rw [← List.count_pos_iff, firstTouch_count H l seen]
  split_ifs with h1 h2
  · simp [h1]
  · simp [h1, h2]
  · simp [h1, h2]

/-- First-touch deduplication depends on the `seen` accumulator only
through membership. -/
theorem firstTouch_congr (l : List Nat) :
    ∀ s₁ s₂ : List Nat, (∀ y, y ∈ s₁ ↔ y ∈ s₂) → firstTouch s₁ l = firstTouch s₂ l := by
  induction l with
  | nil => intro _ _ _; simp [firstTouch]
  | cons x rest ih =>
      intro s₁ s₂ hs
      by_cases hx : x ∈ s₁
      · have hx2 : x ∈ s₂ := (hs x).mp hx
        simp [firstTouch, hx, hx2, ih s₁ s₂ hs]
      · have hx2 : x ∉ s₂ := fun h => hx ((hs x).mpr h)
        have hs' : ∀ y, y ∈ x :: s₁ ↔ y ∈ x :: s₂ := by
          intro y; simp [List.mem_cons, hs y]
        simp [firstTouch, hx, hx2, ih (x :: s₁) (x :: s₂) hs']

/-- How often a class hash occurs in the cumulative diff-level declaration
history, threading an arbitrary initial `seen` accumulator. -/
theorem declHistory_from_count (H : Nat) (c : Chain) :
    ∀ seen : List Nat,
      (((chainDiffs seen c).map StateDiff.declared_contract_hashes).flatten).count H =
        if H ∈ seen then 0 else if H ∈ rawDecls c then 1 else 0 := by
  induction c with
  | nil => intro seen; simp [chainDiffs, rawDecls]
  | cons e rest ih =>
      intro seen
      rw [show chainDiffs seen (e :: rest) =
            record seen e ::
              chainDiffs (seen ++ firstTouch seen e.declaredClasses) rest from rfl]
      rw [List.map_cons, List.flatten_cons, List.count_append]
      rw [show (record seen e).declared_contract_hashes =
            firstTouch seen e.declaredClasses from rfl]
      rw [firstTouch_count H e.declaredClasses seen,
          ih (seen ++ firstTouch seen e.declaredClasses)]
      have hmem : H ∈ seen ++ firstTouch seen e.declaredClasses ↔
          H ∈ seen ∨ H ∈ e.declaredClasses := by
        simp only [List.mem_append, mem_firstTouch]
        tauto
      rw [show rawDecls (e :: rest) = e.declaredClasses ++ rawDecls rest from rfl]
      simp only [hmem, List.mem_append]
      split_ifs <;> simp_all

/-- Nonces add across chain concatenation. -/
theorem nonceOf_append (c ext : Chain) (a : Nat) :
    nonceOf (c ++ ext) a = nonceOf c a + nonceOf ext a := by
  simp [nonceOf, List.map_append, List.flatten_append, List.count_append]

/-- Merging one write preserves the address list, except that a
first-touched address is appended at the end. -/
theorem insertWrite_map_fst (a k v : Nat) :
    ∀ d : List (Nat × List (Nat × Nat)),
      (insertWrite d a k v).map Prod.fst =
        if a ∈ d.map Prod.fst then d.map Prod.fst else d.map Prod.fst ++ [a] := by
  intro d
  induction d with
  | nil => simp [insertWrite]
  | cons p rest ih =>
      obtain ⟨a', es⟩ := p
      by_cases h : a' = a
      · subst h; simp [insertWrite]
      · have h' : a ≠ a' := fun hh => h hh.symm
        by_cases h2 : a ∈ rest.map Prod.fst <;>
          simp [insertWrite, h, h', h2, ih]

/-- Folding the raw write sequence keeps the accumulated addresses and
appends the first-touch order of the new addresses. -/
theorem foldl_insertWrite_map_fst (ws : List (Nat × Nat × Nat)) :
    ∀ d : List (Nat × List (Nat × Nat)),
      ((ws.foldl (fun acc w => insertWrite acc w.1 w.2.1 w.2.2) d).map Prod.fst) =
        d.map Prod.fst ++ firstTouch (d.map Prod.fst) (ws.map Prod.fst) := by
  induction ws with
  | nil => intro d; simp [firstTouch]
  | cons w rest ih =>
      intro d
      rw [List.foldl_cons, ih (insertWrite d w.1 w.2.1 w.2.2), insertWrite_map_fst]
      by_cases h : w.1 ∈ d.map Prod.fst
      · rw [if_pos h, List.map_cons,
            show firstTouch (d.map Prod.fst) (w.1 :: rest.map Prod.fst) =
              firstTouch (d.map Prod.fst) (rest.map Prod.fst) by simp [firstTouch, h]]
      · rw [if_neg h, List.map_cons,
            show firstTouch (d.map Prod.fst) (w.1 :: rest.map Prod.fst) =
              w.1 :: firstTouch (w.1 :: d.map Prod.fst) (rest.map Prod.fst) by
                simp [firstTouch, h]]
        rw [firstTouch_congr (rest.map Prod.fst) ((d.map Prod.fst ++ [w.1]))
              (w.1 :: d.map Prod.fst) (by intro y; simp [List.mem_append, List.mem_cons]; tauto)]
        simp

/-- The address column of a merged storage diff is the first-touch order of
the raw write sequence's addresses. -/
theorem mergeWrites_map_fst (ws : List (Nat × Nat × Nat)) :
    (mergeWrites ws).map Prod.fst = firstTouch [] (ws.map Prod.fst) := by
  have h := foldl_insertWrite_map_fst ws []
  simpa [mergeWrites] using h

/-! ## Claim theorems for the code in `src/starknet_devnet/__init__.py` -/

/-- C10: after module import both patched module attributes point to
`patched_pedersen_hash`, and `patched_pedersen_hash(left, right)` equals
`cpp_hash(left, right)` for every pair of integers. -/
theorem c10_pedersen_patch (cpp_hash : Int → Int → Int) (left right : Int) :
    (runHashPatch importedHashModules).fastPedersenHashAttr = .patchedPedersen ∧
    (runHashPatch importedHashModules).vmCryptoAttr = .patchedPedersen ∧
    patched_pedersen_hash cpp_hash left right = cpp_hash left right := by
  refine ⟨rfl, rfl, rfl⟩

/-- C9: after module initialization, `deepcopy` on a `ContractClass`
dispatches to `simpler_copy` and hence returns `copy(c)`: a shallow copy
whose internal fields are shared by reference with `c`, so deep copying
never recurses into the class body's internals. -/
theorem c9_deepcopy_is_shallow_copy (freshId freshFieldBase : Nat)
    (c : ContractClass) (memo : Memo) :
    pyDeepcopy (initializedHooks freshId) freshId freshFieldBase c memo = pyCopy freshId c ∧
    (pyCopy freshId c).fields = c.fields := by
  exact ⟨rfl, rfl⟩

/-! ## Claim theorems for the spec-modelled RPC core -/

/-- C1: when a `getEvents` query resumed with `continuation_token = T`
returns `k ≥ 1` matching events in its page, the response's
`continuation_token` equals `T + k` — the cursor advances by the count of
matched events actually included in the page. -/
theorem c1_events_next_token (log : List Event) (addrFilt : Option Nat)
    (keysFilt : Option (List (Option Nat))) (token chunk_size : Nat)
    (h : 1 ≤ (queryEvents log addrFilt keysFilt token chunk_size).1.length) :
    (queryEvents log addrFilt keysFilt token chunk_size).2 =
      some (token + (queryEvents log addrFilt keysFilt token chunk_size).1.length) := by
  simp only [queryEvents] at h ⊢
  have hne : ¬ (eventsPage log addrFilt keysFilt token chunk_size).length = 0 := by omega
  simp [nextContinuationToken, hne]

/-- Witness for C1: a concrete log of two matching events, resumed at
token 1 with chunk size 1, returns a one-event page and token 2. -/
theorem c1_events_next_token_witness :
    (queryEvents [⟨5, [1], [0]⟩, ⟨5, [1], [1]⟩] (some 5) none 1 1).2 =
      some (1 + (queryEvents [⟨5, [1], [0]⟩, ⟨5, [1], [1]⟩] (some 5) none 1 1).1.length) :=
  c1_events_next_token _ _ _ _ _ (by decide)

/-- C2: for a deployed account with no accepted invocation,
`getNonce("latest", A)` returns `"0x00"`; after exactly one accepted
invocation from `A` it returns `"0x01"`; and across `A`'s own history the
tracked nonce is monotone non-decreasing. -/
theorem c2_nonce_progression (c ext : Chain) (a : Nat)
    (hdep : isDeployed c a = true) :
    (nonceOf c a = 0 →
      getNonceLatest c a = RpcOutcome.result (Json.str "0x00")) ∧
    (nonceOf c a = 1 →
      getNonceLatest c a = RpcOutcome.result (Json.str "0x01")) ∧
    nonceOf c a ≤ nonceOf (c ++ ext) a := by
  refine ⟨fun h0 => ?_, fun h1 => ?_, ?_⟩
  · simp [getNonceLatest, hdep, h0, rpc_felt_zero]
  · simp [getNonceLatest, hdep, h1, rpc_felt_one]
  · rw [nonceOf_append]
    exact Nat.le_add_right _ _

/-- Witness for C2: a chain with one deployment of address 1 and no
accepted invocations. -/
theorem c2_nonce_progression_witness :
    (nonceOf [⟨[], [(1, 2)], [], []⟩] 1 = 0 →
      getNonceLatest [⟨[], [(1, 2)], [], []⟩] 1 = RpcOutcome.result (Json.str "0x00")) ∧
    (nonceOf [⟨[], [(1, 2)], [], []⟩] 1 = 1 →
      getNonceLatest [⟨[], [(1, 2)], [], []⟩] 1 = RpcOutcome.result (Json.str "0x01")) ∧
    nonceOf [⟨[], [(1, 2)], [], []⟩] 1 ≤
      nonceOf ([⟨[], [(1, 2)], [], []⟩] ++ [⟨[], [], [], [1]⟩]) 1 :=
  c2_nonce_progression [⟨[], [(1, 2)], [], []⟩] [⟨[], [], [], [1]⟩] 1 (by decide)

/-- C3: `getNonce(block_id, contract_address)` for an address never
deployed as of the requested block fails with the error envelope
`{"code": 20, "message": "Contract not found"}` rather than returning a
result. -/
theorem c3_nonce_contract_not_found (c : Chain) (a : Nat)
    (h : isDeployed c a = false) :
    getNonceLatest c a = RpcOutcome.error 20 "Contract not found" := by
  simp [getNonceLatest, h]

/-- Witness for C3: the never-deployed address `0x1111` on an empty chain. -/
theorem c3_nonce_contract_not_found_witness :
    getNonceLatest [] 4369 = RpcOutcome.error 20 "Contract not found" :=
  c3_nonce_contract_not_found [] 4369 rfl

/-- C4: for every method signature and every params value of malformed
shape — including every bare integer, string, or boolean — `handle`
returns the envelope `{"code": -32602, "message": "Invalid params"}`, and
the outcome is independent of the handler, which is never executed. -/
theorem c4_invalid_params (sig : MethodSig) (handler handler' : Json → RpcOutcome)
    (params : Json) (n : Nat) (s : String) (b : Bool)
    (h : validParamsShape sig params = false) :
    handle sig handler params = RpcOutcome.error (-32602) "Invalid params" ∧
    handle sig handler params = handle sig handler' params ∧
    validParamsShape sig (Json.num n) = false ∧
    validParamsShape sig (Json.str s) = false ∧
    validParamsShape sig (Json.bool b) = false := by
  refine ⟨?_, ?_, rfl, rfl, rfl⟩ <;> simp [handle, h]

/-- Witness for C4: the bare integer `2` sent to a two-parameter method, as
in the `starknet_getClass` test. -/
theorem c4_invalid_params_witness :
    handle ⟨["block_id", "class_hash"]⟩
        (fun _ => RpcOutcome.result (Json.bool true)) (Json.num 2) =
      RpcOutcome.error (-32602) "Invalid params" ∧
    handle ⟨["block_id", "class_hash"]⟩
        (fun _ => RpcOutcome.result (Json.bool true)) (Json.num 2) =
      handle ⟨["block_id", "class_hash"]⟩
        (fun _ => RpcOutcome.error 0 "x") (Json.num 2) ∧
    validParamsShape ⟨["block_id", "class_hash"]⟩ (Json.num 2) = false ∧
    validParamsShape ⟨["block_id", "class_hash"]⟩ (Json.str "random string") = false ∧
    validParamsShape ⟨["block_id", "class_hash"]⟩ (Json.bool true) = false :=
  c4_invalid_params _ _ _ _ 2 "random string" true rfl

/-- C5: after a latest block that deploys contract `C` (class `H`) and
writes storage key `K` with value `V`, `getStateUpdate("latest")` returns
a state diff listing `C` as deployed in that block and a storage diff
entry `{address: C, storage_entries: [{key: K, value: V}]}`, with every
felt in zero-padded `0x`-prefixed hex form. -/
theorem c5_storage_diff_scenario (c : Chain) (C H K V : Nat) :
    getStateUpdateLatest (c ++ [⟨[], [(C, H)], [(C, K, V)], []⟩]) =
      some { declared_contract_hashes := []
             deployed_contracts := [(rpc_felt C, rpc_felt H)]
             storage_diffs := [(rpc_felt C, [(rpc_felt K, rpc_felt V)])] } := by
  rw [getStateUpdateLatest, chainDiffs_append_singleton, List.getLast?_concat]
  rfl

/-- C6: for every committed block, `getStateUpdate` returns the serialized
StateDiff whose `declared_contract_hashes` is the list of hex class
hashes newly declared in the block, whose `deployed_contracts` is the
block's `{address, class_hash}` pairs in deployment order, and whose
`storage_diffs` lists addresses in first-touch insertion order within the
block — not sorted. -/
theorem c6_state_update_shape (c : Chain) (e : Effects) :
    getStateUpdateLatest (c ++ [e]) =
      some (serializeDiff (record (declaredAfter [] c) e)) ∧
    (serializeDiff (record (declaredAfter [] c) e)).declared_contract_hashes =
      (firstTouch (declaredAfter [] c) e.declaredClasses).map rpc_felt ∧
    (serializeDiff (record (declaredAfter [] c) e)).deployed_contracts =
      e.deployments.map (fun p => (rpc_felt p.1, rpc_felt p.2)) ∧
    (serializeDiff (record (declaredAfter [] c) e)).storage_diffs.map Prod.fst =
      (firstTouch [] (e.storageWrites.map Prod.fst)).map rpc_felt := by
  refine ⟨?_, rfl, rfl, ?_⟩
  · rw [getStateUpdateLatest, chainDiffs_append_singleton, List.getLast?_concat]
    rfl
  · rw [← mergeWrites_map_fst]
    simp [serializeDiff, record, List.map_map, Function.comp]

/-- C7: declaring the same class body twice, within one block or across
blocks, yields exactly one entry for its ClassHash in the cumulative
history of `declared_contract_hashes`: re-declaring is a no-op at the
diff level. -/
theorem c7_idempotent_declaration (c : Chain) (H : Nat) :
    (declHistory c).count H ≤ 1 ∧
    (H ∈ rawDecls c → (declHistory c).count H = 1) := by
  have h := declHistory_from_count H c []
  simp only [List.not_mem_nil, if_false] at h
  rw [declHistory, h]
  constructor
  · split_ifs <;> omega
  · intro hmem
    simp [hmem]

/-- Witness for C7: class hash 7 declared in two successive blocks appears
exactly once in the cumulative history. -/
theorem c7_idempotent_declaration_witness :
    (declHistory [⟨[7], [], [], []⟩, ⟨[7], [], [], []⟩]).count 7 ≤ 1 ∧
    (declHistory [⟨[7], [], [], []⟩, ⟨[7], [], [], []⟩]).count 7 = 1 :=
  ⟨(c7_idempotent_declaration [⟨[7], [], [], []⟩, ⟨[7], [], [], []⟩] 7).1,
   (c7_idempotent_declaration [⟨[7], [], [], []⟩, ⟨[7], [], [], []⟩] 7).2 (by decide)⟩

/-- C8: for params that are an empty object or absent/null, `syncing()`
returns a successful result whose value is the boolean constant `false`,
never an error. -/
theorem c8_syncing_false (params : Json)
    (h : params = Json.null ∨ params = Json.obj []) :
    syncingRpc params = RpcOutcome.result (Json.bool false) := by
  rcases h with h | h <;> subst h <;> rfl

/-- Witness for C8: the absent/null params case. -/
theorem c8_syncing_false_witness :
    syncingRpc Json.null = RpcOutcome.result (Json.bool false) :=
  c8_syncing_false Json.null (Or.inl rfl)

end Devnet
